import Mathlib

/-!
Shallow embedding of the scene-stack / maze-simulation core of the
`raylib-framework-starter` repository (Rust), for checking its
natural-language specification.

Modelling conventions:
* `usize` is embedded as `Nat` (Rust `saturating_sub` is `Nat` subtraction,
  `saturating_add` followed by a `min`-clamp is an ordinary `Nat` sum since
  the clamp caps the value far below `2^64`); `i32`/`u32` are embedded as
  `Int`/`Nat` — every arithmetic operation the claims touch stays within
  machine range under the map invariants (`x < grid_w`, `y < grid_h`,
  `fov_radius = 7`), so overflow semantics never come into play.
* `f32` quantities (`tick_timer`, `tick_rate`, gamepad axes) are embedded
  as `ℚ`: each claim about them is stated at the level of exact arithmetic.
* I/O collaborators (window, texture loading, JSON file parsing, real-time
  clock) are external to the core: `load_map` results and clock readings
  enter as function arguments.
* Trait objects (`Box<dyn Scene>`) in the scene stack are embedded by a
  type parameter: the stack operations never inspect the scene value, they
  only call its lifecycle hooks, which we record as an event trace.
-/

/-! ### Tile classification (src/lib.rs) -/

def is_floor_tile (tile_id : Int) : Bool :=
  (4 ≤ tile_id && tile_id ≤ 81) || (191 ≤ tile_id && tile_id ≤ 218)

def is_wall_tile (tile_id : Int) : Bool :=
  88 ≤ tile_id && tile_id ≤ 190

/-! ### Map data (src/maze_scene.rs, `MapData` / `MapEntity`) -/

structure MapEntity where
  kind : String
  x : Nat
  y : Nat
deriving DecidableEq, Inhabited

structure MapData where
  grid_w : Nat
  grid_h : Nat
  tile_size_px : Int
  tiles : List (List Int)
  entities : List MapEntity
deriving DecidableEq, Inhabited

/-- Tile lookup `self.map.tiles[y][x]`.  The Rust indexing presumes the
rectangularity invariant (`grid_h` rows of `grid_w` columns); out of that
range the Rust code would panic, and every use below is guarded by a bounds
check against `grid_w`/`grid_h`, so the default value is unreachable under
the invariant. -/
def MapData.tileAt (m : MapData) (x y : Nat) : Int :=
  (m.tiles.getD y []).getD x (-1)

/-! ### Game data (src/game_data.rs)

Timestamps (`std::time::Instant`) are embedded as `Nat` readings of an
external clock; `Instant::now()` becomes a `now` argument. -/

structure GameData where
  points : Nat
  screen_width : Int
  screen_height : Int
  level_start_time : Option Nat
  level_completion_time : Option Nat
deriving DecidableEq, Inhabited

/-- `GameData::score`: add one to the player's total points. -/
def GameData.score (d : GameData) : GameData :=
  { d with points := d.points + 1 }

/-- `GameData::start_level_timer`. -/
def GameData.start_level_timer (d : GameData) (now : Nat) : GameData :=
  { d with level_start_time := some now, level_completion_time := none }

/-- `GameData::complete_level`. -/
def GameData.complete_level (d : GameData) (now : Nat) : GameData :=
  { d with level_completion_time := some now }

/-! ### Scene switch signals and the scene manager (src/scenes.rs) -/

/-- Labels for the concrete scene types of the program (the payload of a
`Push`/`Replace` produced by the scenes under verification). -/
inductive SceneLabel where
  | titleScene
  | menuScene
  | mazeScene
  | pauseScene
  | winScene
deriving DecidableEq, Inhabited

/-- `SceneSwitch`, generic over the scene representation `σ`
(`Box<dyn Scene>` in the Rust source). -/
inductive SceneSwitch (σ : Type) where
  | none
  | push (s : σ)
  | replace (s : σ)
  | pop
  | quit
deriving DecidableEq, Inhabited

/-- A lifecycle call performed by the scene manager on a scene
(`on_enter` / `on_exit`), recorded as a trace event. -/
inductive SceneEvent (σ : Type) where
  | enter (s : σ)
  | exit (s : σ)
deriving DecidableEq

structure SceneManager (σ : Type) where
  scenes : List σ
  quit : Bool
deriving DecidableEq

/-- `SceneManager::apply_switch`.  The stack is a `Vec`: the active scene is
the LAST element, `push` appends, `pop` removes the last element when one
exists.  Besides the new manager state it returns the trace of lifecycle
calls made (`on_enter` on a pushed scene, `on_exit` on a popped one), in
call order. -/
def SceneManager.apply_switch {σ : Type} (mgr : SceneManager σ) :
    SceneSwitch σ → SceneManager σ × List (SceneEvent σ)
  | SceneSwitch.none => (mgr, [])
  | SceneSwitch.push s =>
      ({ mgr with scenes := mgr.scenes ++ [s] }, [SceneEvent.enter s])
  | SceneSwitch.replace s =>
      match mgr.scenes.getLast? with
      | some old =>
          ({ mgr with scenes := mgr.scenes.dropLast ++ [s] },
           [SceneEvent.exit old, SceneEvent.enter s])
      | Option.none =>
          ({ mgr with scenes := mgr.scenes ++ [s] }, [SceneEvent.enter s])
  | SceneSwitch.pop =>
      match mgr.scenes.getLast? with
      | some old => ({ mgr with scenes := mgr.scenes.dropLast }, [SceneEvent.exit old])
      | Option.none => (mgr, [])
  | SceneSwitch.quit => ({ mgr with quit := true }, [])

/-- `SceneManager::should_quit`. -/
def SceneManager.should_quit {σ : Type} (mgr : SceneManager σ) : Bool :=
  mgr.quit || mgr.scenes.isEmpty

/-- Apply `n` successive `Pop` signals (discarding the event traces). -/
def SceneManager.applyPops {σ : Type} (mgr : SceneManager σ) : Nat → SceneManager σ
  | 0 => mgr
  | n + 1 => (mgr.apply_switch SceneSwitch.pop).1.applyPops n

/-! ### Maze scene state (src/maze_scene.rs) -/

/-- `Camera2D`: only the fields the core mutates (`target`, `offset`);
both are set from integer pixel arithmetic whose `f32` image is exact, so
they are kept as integer pairs. -/
structure CameraT where
  target : Int × Int
  offset : Int × Int
deriving DecidableEq, Inhabited

structure MazeScene where
  map : MapData
  tile_size : Int
  player_x : Nat
  player_y : Nat
  camera : CameraT
  fov_radius : Int
  tick_timer : ℚ
  tick_rate : ℚ
  queued_move : Option (Nat × Nat)
  last_gamepad_direction : Option (Int × Int)
deriving DecidableEq, Inhabited

/-- `MazeScene::from_map`, with the already-loaded `MapData` supplied by the
(I/O) `load_map` collaborator. -/
def MazeScene.from_map (m : MapData) : MazeScene :=
  { map := m
    tile_size := 32
    player_x := 0
    player_y := 0
    camera := { target := (0, 0), offset := (0, 0) }
    fov_radius := 7
    tick_timer := 0
    tick_rate := 3 / 20  -- 0.15 (exactly representable choices aside, ℚ is exact)
    queued_move := Option.none
    last_gamepad_direction := Option.none }

/-- `MazeScene::is_valid_move`. -/
def MazeScene.is_valid_move (s : MazeScene) (x y : Nat) : Bool :=
  if x ≥ s.map.grid_w || y ≥ s.map.grid_h then
    false
  else
    let tid := s.map.tileAt x y
    0 ≤ tid && !(is_wall_tile tid)

/-- `MazeScene::in_fov`. -/
def MazeScene.in_fov (s : MazeScene) (x y : Nat) : Bool :=
  if x ≥ s.map.grid_w || y ≥ s.map.grid_h then
    false
  else
    let dx : Int := (x : Int) - (s.player_x : Int)
    let dy : Int := (y : Int) - (s.player_y : Int)
    let dist_squared := dx * dx + dy * dy
    let radius_squared := s.fov_radius * s.fov_radius
    decide (dist_squared ≤ radius_squared)

/-- `MazeScene::get_visible_bounds`: `(min_x, max_x, min_y, max_y)` clamped
to map bounds.  `fov_radius as usize` is `Int.toNat` (the radius is the
constant 7, never negative, so the negative-wrap of the Rust cast is
unreachable); `saturating_sub` is `Nat` subtraction. -/
def MazeScene.get_visible_bounds (s : MazeScene) : Nat × Nat × Nat × Nat :=
  let r := s.fov_radius.toNat
  let min_x := s.player_x - r
  let max_x := min (s.player_x + r + 1) s.map.grid_w
  let min_y := s.player_y - r
  let max_y := min (s.player_y + r + 1) s.map.grid_h
  (min_x, max_x, min_y, max_y)

/-- `MazeScene::update_camera`: move the camera target to the player's tile
centre and the offset to half the viewport.  `i32` division truncates toward
zero, i.e. `Int.tdiv`. -/
def MazeScene.update_camera (s : MazeScene) (data : GameData) : MazeScene :=
  { s with camera :=
      { target := ((s.player_x : Int) * s.tile_size + s.tile_size.tdiv 2,
                   (s.player_y : Int) * s.tile_size + s.tile_size.tdiv 2)
        offset := (data.screen_width.tdiv 2, data.screen_height.tdiv 2) } }

/-- `MazeScene::update_player`: consume (`Option::take`) the queued move and
apply it when still valid. -/
def MazeScene.update_player (s : MazeScene) : MazeScene :=
  match s.queued_move with
  | some (new_x, new_y) =>
      if s.is_valid_move new_x new_y then
        { s with player_x := new_x, player_y := new_y, queued_move := Option.none }
      else
        { s with queued_move := Option.none }
  | Option.none => s

/-! ### Input device state

The snapshot of the input collaborator that `MazeScene::handle_input`
queries.  Each `key_*` field is the `is_key_down` answer for the pair of
keys the source tests together; `key_p_pressed` is the `is_key_pressed`
answer for the `P` key (present on the device, never queried by the maze
scene); gamepad axes are in `[-1, 1]`. -/

structure InputState where
  key_right_or_d : Bool
  key_left_or_a : Bool
  key_down_or_s : Bool
  key_up_or_w : Bool
  key_p_pressed : Bool
  gamepad_available : Bool
  gamepad_x : ℚ
  gamepad_y : ℚ
deriving DecidableEq, Inhabited

/-- The keyboard block of `MazeScene::handle_input` (the four held-key
checks, source lines 255-271): starting from the player's cell, each held
direction mutates the candidate cell (clamped to the grid on increments,
saturating on decrements) and sets the `movement_queued` flag.  Returns
`(new_x, new_y, movement_queued)`. -/
def MazeScene.keyboard_candidate (s : MazeScene) (rl : InputState) :
    Nat × Nat × Bool :=
  let kx : Nat × Bool :=
    if rl.key_right_or_d then
      (min (s.player_x + 1) (s.map.grid_w - 1), true)
    else (s.player_x, false)
  let kx2 : Nat × Bool :=
    if rl.key_left_or_a then (kx.1 - 1, true) else kx
  let ky : Nat × Bool :=
    if rl.key_down_or_s then
      (min (s.player_y + 1) (s.map.grid_h - 1), true)
    else (s.player_y, kx2.2)
  let ky2 : Nat × Bool :=
    if rl.key_up_or_w then (ky.1 - 1, true) else ky
  (kx2.1, ky2.1, ky2.2)

/-- Discrete direction from analog stick input (source lines 283-307):
prioritise the axis with greater magnitude; on a tie, allow diagonal
movement when past the deadzone.  Returns `(x_dir, y_dir)` with components
in `{-1, 0, 1}`. -/
def gamepad_direction (deadzone x_axis y_axis : ℚ) : Int × Int :=
  let abs_x := |x_axis|
  let abs_y := |y_axis|
  let gamepad_x_dir : Int :=
    if abs_x > abs_y then (if x_axis > 0 then 1 else -1)
    else if abs_y > abs_x then 0
    else if abs_x > deadzone then (if x_axis > 0 then 1 else -1) else 0
  let gamepad_y_dir : Int :=
    if abs_x > abs_y then 0
    else if abs_y > abs_x then (if y_axis > 0 then 1 else -1)
    else if abs_y > deadzone then (if y_axis > 0 then 1 else -1) else 0
  (gamepad_x_dir, gamepad_y_dir)

/-- The gamepad block of `MazeScene::handle_input` (source lines 273-330):
continues mutating the candidate produced by the keyboard block; analog
input past the 0.5 deadzone is converted to a discrete direction, and in
the deadzone the tracked last direction is reset.  Returns
`(new_x, new_y, movement_queued, last_gamepad_direction)`. -/
def MazeScene.gamepad_candidate (s : MazeScene) (rl : InputState)
    (start : Nat × Nat × Bool) : Nat × Nat × Bool × Option (Int × Int) :=
  if rl.gamepad_available then
    let x_axis := rl.gamepad_x
    let y_axis := rl.gamepad_y
    let deadzone : ℚ := 1 / 2
    let abs_x := |x_axis|
    let abs_y := |y_axis|
    if abs_x > deadzone || abs_y > deadzone then
      let dirs := gamepad_direction deadzone x_axis y_axis
      let gx : Nat × Bool :=
        if dirs.1 ≠ 0 then
          (if dirs.1 > 0 then
             min (start.1 + 1) (s.map.grid_w - 1)
           else start.1 - 1, true)
        else (start.1, start.2.2)
      let gy : Nat × Bool :=
        if dirs.2 ≠ 0 then
          (if dirs.2 > 0 then
             min (start.2.1 + 1) (s.map.grid_h - 1)
           else start.2.1 - 1, true)
        else (start.2.1, gx.2)
      (gx.1, gy.1, gy.2, s.last_gamepad_direction)
    else
      -- stick in deadzone: reset tracking
      (start.1, start.2.1, start.2.2, Option.none)
  else (start.1, start.2.1, start.2.2, s.last_gamepad_direction)

/-- `MazeScene::handle_input`: queue movement for tick-based updates (only
when no move is already queued).  Keyboard then gamepad both mutate the
candidate cell; the move is queued only when the candidate differs from the
current cell.  Always returns `SceneSwitch::None`. -/
def MazeScene.handle_input (s : MazeScene) (rl : InputState) :
    MazeScene × SceneSwitch SceneLabel :=
  if s.queued_move.isNone then
    let gp := s.gamepad_candidate rl (s.keyboard_candidate rl)
    let new_x := gp.1
    let new_y := gp.2.1
    let movement_queued := gp.2.2.1
    let last_dir := gp.2.2.2
    let queued :=
      if movement_queued && (new_x ≠ s.player_x || new_y ≠ s.player_y) then
        some (new_x, new_y)
      else s.queued_move
    ({ s with queued_move := queued, last_gamepad_direction := last_dir },
     SceneSwitch.none)
  else
    (s, SceneSwitch.none)

/-- The row-major scan of `MazeScene::on_enter`'s fallback: the first
`(x, y)` (rows outer, columns inner) with `is_valid_move x y`. -/
def MazeScene.firstValidCell (s : MazeScene) : Option (Nat × Nat) :=
  ((List.range s.map.grid_h).flatMap
      (fun y => (List.range s.map.grid_w).map (fun x => (x, y)))).find?
    (fun p => s.is_valid_move p.1 p.2)

/-- `MazeScene::on_enter`: reload the map (`loaded` is the `load_map`
result for `s.map_path`; texture loading is I/O and out of scope), place
the player from the `"player"` entity or the first walkable cell, filter
player entities out, update the camera and start the level timer. -/
def MazeScene.on_enter (s : MazeScene) (loaded : MapData) (data : GameData)
    (now : Nat) : MazeScene × GameData :=
  let s := { s with map := loaded, tile_size := loaded.tile_size_px }
  let s :=
    match s.map.entities.find? (fun e => e.kind == "player") with
    | some e => { s with player_x := e.x, player_y := e.y }
    | Option.none =>
        match s.firstValidCell with
        | some p => { s with player_x := p.1, player_y := p.2 }
        | Option.none => s
  let s := { s with map :=
      { s.map with entities := s.map.entities.filter (fun e => e.kind ≠ "player") } }
  let s := s.update_camera data
  (s, data.start_level_timer now)

/-- `MazeScene::update`: camera every frame; accumulate `dt` and fire one
logical tick when the accumulator reaches `tick_rate` (reset to zero);
then the goal scan (every frame, not gated by the tick): on the first
`"goal"` entity co-located with the player, score, record completion time
and replace with the win scene. -/
def MazeScene.update (s : MazeScene) (dt : ℚ) (data : GameData) (now : Nat) :
    MazeScene × GameData × SceneSwitch SceneLabel :=
  let s := s.update_camera data
  let s := { s with tick_timer := s.tick_timer + dt }
  let s :=
    if s.tick_timer ≥ s.tick_rate then
      let s := { s with tick_timer := 0 }
      -- update_player on the tick; update_enemies is a no-op placeholder
      s.update_player
    else s
  match s.map.entities.find?
      (fun e => e.kind == "goal" && e.x == s.player_x && e.y == s.player_y) with
  | some _ =>
      (s, (data.score.complete_level now), SceneSwitch.replace SceneLabel.winScene)
  | Option.none => (s, data, SceneSwitch.none)

/-! ### Instrumentation for the tick schedule

`MazeScene.update` fires a logical tick exactly when
`tick_timer + dt ≥ tick_rate` holds on entry.  `tickCount` replays that
condition over a sequence of `delta_seconds` values (the accumulator the
source keeps in `tick_timer`), counting fired ticks; `runUpdates` drives
the real `update` over the same sequence and counts calls whose entry
state satisfies the fire condition. -/

def tickCount (rate : ℚ) : ℚ → List ℚ → Nat
  | _, [] => 0
  | t, d :: ds =>
      if t + d ≥ rate then 1 + tickCount rate 0 ds
      else tickCount rate (t + d) ds

def runUpdates (data : GameData) (now : Nat) :
    MazeScene → List ℚ → MazeScene × Nat
  | s, [] => (s, 0)
  | s, d :: ds =>
      let fired := if s.tick_timer + d ≥ s.tick_rate then 1 else 0
      let s1 := (s.update d data now).1
      let rest := runUpdates data now s1 ds
      (rest.1, fired + rest.2)

/-! ### The bounds invariant (claim C9) -/

/-- Player inside the grid, and any queued move inside the grid. -/
def MazeScene.invariant (s : MazeScene) : Bool :=
  s.player_x < s.map.grid_w && s.player_y < s.map.grid_h &&
    (match s.queued_move with
     | Option.none => true
     | some p => p.1 < s.map.grid_w && p.2 < s.map.grid_h)

/-- All entities of a map lie inside the grid. -/
def MapData.entitiesInBounds (m : MapData) : Bool :=
  m.entities.all (fun e => e.x < m.grid_w && e.y < m.grid_h)

/-! ### Concrete fixtures (for witnesses and counterexamples)

A 3×3 map: floor tiles (id 4) except a wall (id 100) at `(2, 0)`,
a player entity at `(1, 1)` and a goal entity at `(2, 2)`. -/

def sampleMap : MapData :=
  { grid_w := 3
    grid_h := 3
    tile_size_px := 32
    tiles := [[4, 4, 100], [4, 4, 4], [4, 4, 4]]
    entities := [⟨"player", 1, 1⟩, ⟨"goal", 2, 2⟩] }

/-- A maze state on `sampleMap` with the player at `(1, 1)`. -/
def sampleScene : MazeScene :=
  { MazeScene.from_map sampleMap with player_x := 1, player_y := 1 }

/-- `sampleScene` with a queued move onto the wall cell `(2, 0)`. -/
def sampleSceneWallQueued : MazeScene :=
  { sampleScene with queued_move := some (2, 0) }

/-- `sampleScene` with a queued move onto the floor cell `(2, 1)`. -/
def sampleSceneFloorQueued : MazeScene :=
  { sampleScene with queued_move := some (2, 1) }

/-- A maze state sitting on the goal cell of a 10×10 all-floor map with a
goal entity at `(5, 5)` (the spec's scenario). -/
def sampleGoalScene : MazeScene :=
  { MazeScene.from_map
      { grid_w := 10
        grid_h := 10
        tile_size_px := 32
        tiles := List.replicate 10 (List.replicate 10 4)
        entities := [⟨"goal", 5, 5⟩] } with
    player_x := 5, player_y := 5 }

/-- An input snapshot with only the pause key pressed. -/
def pauseOnlyInput : InputState :=
  { key_right_or_d := false
    key_left_or_a := false
    key_down_or_s := false
    key_up_or_w := false
    key_p_pressed := true
    gamepad_available := false
    gamepad_x := 0
    gamepad_y := 0 }

/-- An input snapshot holding the right-arrow key. -/
def rightInput : InputState :=
  { pauseOnlyInput with key_p_pressed := false, key_right_or_d := true }

def sampleData : GameData :=
  { points := 0
    screen_width := 640
    screen_height := 480
    level_start_time := some 0
    level_completion_time := Option.none }

/-- A two-scene manager stack (title below, menu on top). -/
def sampleMgr : SceneManager SceneLabel :=
  { scenes := [SceneLabel.titleScene, SceneLabel.menuScene], quit := false }

/-! ### Helper lemmas -/

theorem MazeScene.handle_input_of_queued (s : MazeScene) (inp : InputState)
    (h : s.queued_move.isNone = false) : s.handle_input inp = (s, SceneSwitch.none) := by
  unfold MazeScene.handle_input
  rw [h]
  rfl

theorem SceneManager.pop_scenes {σ : Type} (mgr : SceneManager σ) :
    (mgr.apply_switch SceneSwitch.pop).1.scenes = mgr.scenes.dropLast := by
  unfold SceneManager.apply_switch
  cases h : mgr.scenes.getLast? with
  | none =>
      have : mgr.scenes = [] := List.getLast?_eq_none_iff.mp h
      simp [this]
  | some old => rfl

theorem SceneManager.pop_quit {σ : Type} (mgr : SceneManager σ) :
    (mgr.apply_switch SceneSwitch.pop).1.quit = mgr.quit := by
  unfold SceneManager.apply_switch
  cases h : mgr.scenes.getLast? with
  | none => rfl
  | some old => rfl

/-! ### Claim theorems -/

/-- C1, counterexample: in the maze-play scene, with the pause key pressed
(and nothing else), `MazeScene.handle_input` does NOT return
`Push(PauseScene)` — it returns `None`.  The maze scene's input handler
never queries the pause key; the pause-key → `Push(PauseScene)` branch
lives in `GameScene`, a scene the maze flow does not use. -/
theorem C1_counterexample :
    (sampleScene.handle_input pauseOnlyInput).2 = SceneSwitch.none ∧
      (sampleScene.handle_input pauseOnlyInput).2 ≠
        SceneSwitch.push SceneLabel.pauseScene := by
  constructor
  · rfl
  · intro h
    exact SceneSwitch.noConfusion h

/-- C1, amended: in the maze-play scene, `MazeScene.handle_input` returns
the `None` signal for every state and every input-device snapshot — in
particular also when the pause key is pressed, and whenever a move is
already queued or no movement is requested.  (No pause scene is ever pushed
by the maze scene.) -/
theorem C1_amended (s : MazeScene) (inp : InputState) :
    (s.handle_input inp).2 = SceneSwitch.none := by
  unfold MazeScene.handle_input
  split
  · rfl
  · rfl

/-- C5: while a move is already queued (`queued_move` is `some m`),
`MazeScene.handle_input` is a complete no-op regardless of the input-device
state — a single call returns the state unchanged (with the `None` signal),
and any number of repeated calls leaves the queued move unchanged. -/
theorem C5_idempotent (s : MazeScene) (m : Nat × Nat)
    (h : s.queued_move = some m) :
    (∀ inp : InputState, s.handle_input inp = (s, SceneSwitch.none)) ∧
      ∀ inps : List InputState,
        (inps.foldl (fun st inp => (st.handle_input inp).1) s).queued_move = some m := by
  have h1 : ∀ inp : InputState, s.handle_input inp = (s, SceneSwitch.none) := by
    intro inp
    exact s.handle_input_of_queued inp (by rw [h]; rfl)
  refine ⟨h1, ?_⟩
  intro inps
  have hfold : inps.foldl (fun st inp => (st.handle_input inp).1) s = s := by
    induction inps with
    | nil => rfl
    | cons i rest ih =>
        have : (s.handle_input i).1 = s := by rw [h1 i]
        simpa [List.foldl, this] using ih
  rw [hfold, h]

/-- C5 witness: the no-op behaviour evaluated on a concrete scene with a
queued move `(2, 0)`. -/
theorem C5_idempotent_witness :
    sampleSceneWallQueued.queued_move = some (2, 0) ∧
      ((∀ inp : InputState,
          sampleSceneWallQueued.handle_input inp = (sampleSceneWallQueued, SceneSwitch.none)) ∧
        ∀ inps : List InputState,
          (inps.foldl (fun st inp => (st.handle_input inp).1)
              sampleSceneWallQueued).queued_move = some (2, 0)) :=
  ⟨rfl, C5_idempotent sampleSceneWallQueued (2, 0) rfl⟩

theorem MazeScene.update_player_queued (s : MazeScene) :
    s.update_player.queued_move = Option.none := by
  unfold MazeScene.update_player
  split
  · split
    · rfl
    · rfl
  · assumption

/-- Unfolding of `MazeScene.update` with the intermediate lets reduced. -/
theorem MazeScene.update_eq (s : MazeScene) (dt : ℚ) (data : GameData) (now : Nat) :
    s.update dt data now =
      (let s3 := if s.tick_timer + dt ≥ s.tick_rate then
          MazeScene.update_player { s.update_camera data with tick_timer := 0 }
        else { s.update_camera data with tick_timer := s.tick_timer + dt }
       match s3.map.entities.find?
          (fun e => e.kind == "goal" && e.x == s3.player_x && e.y == s3.player_y) with
       | some _ =>
          (s3, data.score.complete_level now, SceneSwitch.replace SceneLabel.winScene)
       | Option.none => (s3, data, SceneSwitch.none)) := rfl

/-- C7: for every manager stack, applying `Push s` followed immediately by
`Pop` restores the exact prior manager state (so the prior top-of-stack
scene is the active scene again); the lifecycle trace is `on_enter` on the
pushed scene only, then `on_exit` on it — the restored scene's `on_enter`
is never re-invoked. -/
theorem C7_push_pop {σ : Type} (mgr : SceneManager σ) (s : σ) :
    (mgr.apply_switch (SceneSwitch.push s)).2 = [SceneEvent.enter s] ∧
      (mgr.apply_switch (SceneSwitch.push s)).1.apply_switch SceneSwitch.pop =
        (mgr, [SceneEvent.exit s]) := by
  cases mgr with
  | mk scenes quit =>
      refine ⟨rfl, ?_⟩
      show SceneManager.apply_switch _ SceneSwitch.pop = _
      unfold SceneManager.apply_switch
      simp

/-- C8: applying `Pop` is total and never panics — on every stack it just
drops the top element (on a one-element stack it leaves the stack empty);
`should_quit` holds exactly when the quit flag is set or the stack is
empty; and after enough repeated `Pop`s to exhaust the stack,
`should_quit` returns `true`. -/
theorem C8_pop_safe {σ : Type} (mgr : SceneManager σ) :
    (mgr.apply_switch SceneSwitch.pop).1.scenes = mgr.scenes.dropLast ∧
      (mgr.should_quit = true ↔ (mgr.quit = true ∨ mgr.scenes = [])) ∧
      ∀ n : Nat, mgr.scenes.length ≤ n → (mgr.applyPops n).should_quit = true := by
  refine ⟨mgr.pop_scenes, ?_, ?_⟩
  · simp [SceneManager.should_quit, List.isEmpty_iff]
  · intro n
    induction n generalizing mgr with
    | zero =>
        intro hn
        have : mgr.scenes = [] := List.eq_nil_of_length_eq_zero (Nat.le_zero.mp hn)
        simp [SceneManager.applyPops, SceneManager.should_quit, this]
    | succ k ih =>
        intro hn
        show ((mgr.apply_switch SceneSwitch.pop).1.applyPops k).should_quit = true
        apply ih
        rw [SceneManager.pop_scenes, List.length_dropLast]
        omega

/-- C8 witness: a concrete two-scene stack emptied by two `Pop`s makes
`should_quit` true. -/
theorem C8_pop_safe_witness :
    sampleMgr.scenes.length ≤ 2 ∧ (sampleMgr.applyPops 2).should_quit = true :=
  ⟨by decide, (C8_pop_safe sampleMgr).2.2 2 (by decide)⟩

theorem MazeScene.is_valid_move_iff (s : MazeScene) (x y : Nat) :
    s.is_valid_move x y = true ↔
      x < s.map.grid_w ∧ y < s.map.grid_h ∧ 0 ≤ s.map.tileAt x y ∧
        ¬(88 ≤ s.map.tileAt x y ∧ s.map.tileAt x y ≤ 190) := by
  unfold MazeScene.is_valid_move is_wall_tile
  split
  · rename_i hb
    simp only [ge_iff_le, Bool.or_eq_true, decide_eq_true_eq] at hb
    constructor
    · intro h
      exact absurd h (by simp)
    · intro h
      omega
  · rename_i hb
    simp only [ge_iff_le, Bool.or_eq_true, decide_eq_true_eq, not_or, Nat.not_le] at hb
    simp only [Bool.and_eq_true, decide_eq_true_eq, Bool.not_eq_true',
      Bool.and_eq_false_iff, decide_eq_false_iff_not, Int.not_le]
    constructor
    · rintro ⟨h0, hw⟩
      refine ⟨hb.1, hb.2, h0, ?_⟩
      rintro ⟨h88, h190⟩
      omega
    · rintro ⟨_, _, h0, hw⟩
      refine ⟨h0, ?_⟩
      omega

/-- C2: with a move `(x, y)` queued, the tick body (`update_player`)
consumes the queued move and applies it exactly when the target is in
bounds, its tile id is ≥ 0 and is not a wall id (88..=190); otherwise the
player position is unchanged.  Moreover, within `update`, a tick always
consumes the queue, and an invalid queued move is dropped silently: the
whole `update` result (state, game data and signal) is the same as if no
move had been queued at all. -/
theorem C2_move_applied_iff_valid (s : MazeScene) (x y : Nat)
    (hq : s.queued_move = some (x, y)) :
    s.update_player.queued_move = Option.none ∧
      ((x < s.map.grid_w ∧ y < s.map.grid_h ∧ 0 ≤ s.map.tileAt x y ∧
          ¬(88 ≤ s.map.tileAt x y ∧ s.map.tileAt x y ≤ 190)) →
        s.update_player.player_x = x ∧ s.update_player.player_y = y) ∧
      (¬(x < s.map.grid_w ∧ y < s.map.grid_h ∧ 0 ≤ s.map.tileAt x y ∧
          ¬(88 ≤ s.map.tileAt x y ∧ s.map.tileAt x y ≤ 190)) →
        s.update_player.player_x = s.player_x ∧
          s.update_player.player_y = s.player_y) ∧
      (∀ (dt : ℚ) (data : GameData) (now : Nat),
        s.tick_timer + dt ≥ s.tick_rate →
        (s.update dt data now).1.queued_move = Option.none) ∧
      (∀ (dt : ℚ) (data : GameData) (now : Nat),
        s.tick_timer + dt ≥ s.tick_rate →
        ¬(x < s.map.grid_w ∧ y < s.map.grid_h ∧ 0 ≤ s.map.tileAt x y ∧
            ¬(88 ≤ s.map.tileAt x y ∧ s.map.tileAt x y ≤ 190)) →
        s.update dt data now =
          MazeScene.update { s with queued_move := Option.none } dt data now) := by
  refine ⟨s.update_player_queued, ?_, ?_, ?_, ?_⟩
  · intro hc
    have hv : s.is_valid_move x y = true := (s.is_valid_move_iff x y).mpr hc
    unfold MazeScene.update_player
    rw [hq]
    simp [hv]
  · intro hc
    have hv : s.is_valid_move x y = false := by
      rw [Bool.eq_false_iff]
      intro hvv
      exact hc ((s.is_valid_move_iff x y).mp hvv)
    unfold MazeScene.update_player
    rw [hq]
    simp [hv]
  · intro dt data now htick
    obtain ⟨mp, ts, px, py, cam, fov, tt, tr, qm, lg⟩ := s
    dsimp only at hq htick ⊢
    subst hq
    simp only [MazeScene.update, MazeScene.update_camera, MazeScene.update_player]
    rw [if_pos htick]
    split
    · rename_i heq
      dsimp only
      split
      · rfl
      · rfl
    · rename_i heq
      dsimp only
      split
      · rfl
      · rfl
  · intro dt data now htick hc
    have hv : s.is_valid_move x y = false := by
      rw [Bool.eq_false_iff]
      intro hvv
      exact hc ((s.is_valid_move_iff x y).mp hvv)
    obtain ⟨mp, ts, px, py, cam, fov, tt, tr, qm, lg⟩ := s
    dsimp only at hq htick hv hc ⊢
    subst hq
    simp only [MazeScene.is_valid_move] at hv
    simp only [MazeScene.update, MazeScene.update_camera, MazeScene.update_player,
      MazeScene.is_valid_move]
    rw [if_pos htick, if_pos htick]
    have hcnot : ¬((x < mp.grid_w ∧ y < mp.grid_h) ∧
        0 ≤ mp.tileAt x y ∧ is_wall_tile (mp.tileAt x y) = false) := by
      rintro ⟨⟨h1, h2⟩, h3, h4⟩
      refine hc ⟨h1, h2, h3, ?_⟩
      rintro ⟨ha, hb⟩
      simp only [is_wall_tile, Bool.and_eq_false_iff, decide_eq_false_iff_not,
        Int.not_le] at h4
      omega
    simp [hcnot]

/-- C2 witness: on the concrete scene with a queued move onto the wall
cell `(2, 0)`, the conclusions evaluated. -/
theorem C2_move_applied_iff_valid_witness :
    sampleSceneWallQueued.queued_move = some (2, 0) ∧
      (sampleSceneWallQueued.update_player.queued_move = Option.none ∧
        sampleSceneWallQueued.update_player.player_x = sampleSceneWallQueued.player_x ∧
        sampleSceneWallQueued.update_player.player_y = sampleSceneWallQueued.player_y) :=
  ⟨rfl,
   (C2_move_applied_iff_valid sampleSceneWallQueued 2 0 rfl).1,
   (C2_move_applied_iff_valid sampleSceneWallQueued 2 0 rfl).2.2.1 (by decide)⟩

/-- C6: with no queued move and a remaining `"goal"` entity co-located with
the player, the next `update` call — with any `delta_seconds`, the check is
not gated by the tick — increments `points` by exactly 1, records the
level-completion timestamp, and returns `Replace(WinScene)`. -/
theorem C6_goal_detection (s : MazeScene) (data : GameData) (now : Nat) (dt : ℚ)
    (hq : s.queued_move = Option.none)
    (hgoal : ∃ e ∈ s.map.entities,
      e.kind = "goal" ∧ e.x = s.player_x ∧ e.y = s.player_y) :
    (s.update dt data now).2.1.points = data.points + 1 ∧
      (s.update dt data now).2.1.level_completion_time = some now ∧
      (s.update dt data now).2.2 = SceneSwitch.replace SceneLabel.winScene := by
  obtain ⟨mp, ts, px, py, cam, fov, tt, tr, qm, lg⟩ := s
  dsimp only at hq hgoal ⊢
  subst hq
  have hfind : (List.find? (fun e => e.kind == "goal" && e.x == px && e.y == py)
      mp.entities).isSome = true := by
    rw [List.find?_isSome]
    obtain ⟨e, he, hk, hx, hy⟩ := hgoal
    exact ⟨e, he, by simp [hk, hx, hy]⟩
  obtain ⟨e, hfe⟩ := Option.isSome_iff_exists.mp hfind
  simp only [MazeScene.update, MazeScene.update_camera, MazeScene.update_player]
  by_cases htick : tt + dt ≥ tr
  · rw [if_pos htick]
    simp only []
    rw [hfe]
    simp [GameData.score, GameData.complete_level]
  · rw [if_neg htick]
    rw [hfe]
    simp [GameData.score, GameData.complete_level]

/-- C6 witness: the spec's scenario — player at `(5, 5)` on a 10×10 grid
with a goal entity at `(5, 5)` — evaluated. -/
theorem C6_goal_detection_witness :
    sampleGoalScene.queued_move = Option.none ∧
      ((sampleGoalScene.update 0 sampleData 42).2.1.points = sampleData.points + 1 ∧
        (sampleGoalScene.update 0 sampleData 42).2.1.level_completion_time = some 42 ∧
        (sampleGoalScene.update 0 sampleData 42).2.2 =
          SceneSwitch.replace SceneLabel.winScene) :=
  ⟨rfl, C6_goal_detection sampleGoalScene sampleData 42 0 rfl (by decide)⟩

theorem MazeScene.update_player_tick_timer (s : MazeScene) :
    s.update_player.tick_timer = s.tick_timer := by
  unfold MazeScene.update_player
  split
  · split
    · rfl
    · rfl
  · rfl

theorem MazeScene.update_player_tick_rate (s : MazeScene) :
    s.update_player.tick_rate = s.tick_rate := by
  unfold MazeScene.update_player
  split
  · split
    · rfl
    · rfl
  · rfl

/-- The accumulator after one `update`: reset to exactly zero when the tick
fires, otherwise incremented by `dt`. -/
theorem MazeScene.update_timer (s : MazeScene) (dt : ℚ) (data : GameData) (now : Nat) :
    (s.update dt data now).1.tick_timer =
      if s.tick_timer + dt ≥ s.tick_rate then 0 else s.tick_timer + dt := by
  by_cases htick : s.tick_timer + dt ≥ s.tick_rate
  · rw [MazeScene.update_eq]
    dsimp only
    rw [if_pos htick, if_pos htick]
    split
    · simp [MazeScene.update_player_tick_timer]
    · simp [MazeScene.update_player_tick_timer]
  · rw [MazeScene.update_eq]
    dsimp only
    rw [if_neg htick, if_neg htick]
    split
    · simp [MazeScene.update_camera]
    · simp [MazeScene.update_camera]

theorem MazeScene.update_rate (s : MazeScene) (dt : ℚ) (data : GameData) (now : Nat) :
    (s.update dt data now).1.tick_rate = s.tick_rate := by
  rw [MazeScene.update_eq]
  dsimp only
  split
  · split
    · simp [MazeScene.update_player_tick_rate, MazeScene.update_camera]
    · simp [MazeScene.update_camera]
  · split
    · simp [MazeScene.update_player_tick_rate, MazeScene.update_camera]
    · simp [MazeScene.update_camera]

/-- The run of `update` over a sequence of `delta_seconds` fires exactly
the ticks that the accumulator replay `tickCount` predicts. -/
theorem runUpdates_count (data : GameData) (now : Nat) :
    ∀ (ds : List ℚ) (s : MazeScene),
      (runUpdates data now s ds).2 = tickCount s.tick_rate s.tick_timer ds := by
  intro ds
  induction ds with
  | nil => intro s; rfl
  | cons d rest ih =>
      intro s
      simp only [runUpdates, tickCount]
      rw [ih ((s.update d data now).1), MazeScene.update_rate, MazeScene.update_timer]
      by_cases hc : s.tick_timer + d ≥ s.tick_rate
      · rw [if_pos hc, if_pos hc, if_pos hc]
      · rw [if_neg hc, if_neg hc, if_neg hc]
        rw [Nat.zero_add]

theorem tickCount_eq_zero (rate : ℚ) :
    ∀ (ds : List ℚ) (t : ℚ), (∀ d ∈ ds, 0 ≤ d) → t + ds.sum < rate →
      tickCount rate t ds = 0 := by
  intro ds
  induction ds with
  | nil => intro t _ _; rfl
  | cons d rest ih =>
      intro t hnn hlt
      rw [List.sum_cons] at hlt
      have hd0 : 0 ≤ d := hnn d (List.mem_cons_self d rest)
      have hrest0 : 0 ≤ rest.sum :=
        List.sum_nonneg (fun x hx => hnn x (List.mem_cons_of_mem d hx))
      have hcond : ¬(t + d ≥ rate) := by linarith
      simp only [tickCount]
      rw [if_neg hcond]
      exact ih (t + d) (fun x hx => hnn x (List.mem_cons_of_mem d hx)) (by linarith)

theorem tickCount_eq_one (rate : ℚ) (hrate : 0 < rate) :
    ∀ (ds : List ℚ) (t : ℚ), (∀ d ∈ ds, 0 ≤ d) → 0 ≤ t → t < rate →
      t + ds.sum = rate → tickCount rate t ds = 1 := by
  intro ds
  induction ds with
  | nil =>
      intro t _ _ htlt hsum
      rw [List.sum_nil, add_zero] at hsum
      exact absurd hsum (ne_of_lt htlt)
  | cons d rest ih =>
      intro t hnn ht0 htlt hsum
      rw [List.sum_cons] at hsum
      have hd0 : 0 ≤ d := hnn d (List.mem_cons_self d rest)
      have hrest0 : 0 ≤ rest.sum :=
        List.sum_nonneg (fun x hx => hnn x (List.mem_cons_of_mem d hx))
      simp only [tickCount]
      by_cases hc : t + d ≥ rate
      · rw [if_pos hc]
        have hz : tickCount rate 0 rest = 0 := by
          apply tickCount_eq_zero rate rest 0
            (fun x hx => hnn x (List.mem_cons_of_mem d hx))
          have hsum0 : rest.sum = 0 := by linarith
          simpa [hsum0] using hrate
        rw [hz]
      · rw [if_neg hc]
        exact ih (t + d) (fun x hx => hnn x (List.mem_cons_of_mem d hx))
          (by linarith) (by linarith) (by linarith)

/-- C3: starting from a zero accumulator with `tick_rate = 0.15`, feeding
`update` any finite sequence of non-negative `delta_seconds` values whose
sum is exactly one tick period fires exactly one logical tick in total,
however the sum is split across calls. -/
theorem C3_tick_determinism (s : MazeScene) (data : GameData) (now : Nat)
    (ds : List ℚ) (h0 : s.tick_timer = 0) (hrate : s.tick_rate = 3 / 20)
    (hnn : ∀ d ∈ ds, 0 ≤ d) (hsum : ds.sum = s.tick_rate) :
    (runUpdates data now s ds).2 = 1 := by
  rw [runUpdates_count data now ds s, h0]
  apply tickCount_eq_one s.tick_rate (by rw [hrate]; norm_num) ds 0 hnn le_rfl
    (by rw [hrate]; norm_num)
  rw [zero_add]
  exact hsum

/-- C3 witness: the split `[0.05, 0.05, 0.05]` of one tick period fires
exactly one tick on a concrete scene. -/
theorem C3_tick_determinism_witness :
    sampleScene.tick_timer = 0 ∧ sampleScene.tick_rate = 3 / 20 ∧
      (∀ d ∈ ([1/20, 1/20, 1/20] : List ℚ), 0 ≤ d) ∧
      ([1/20, 1/20, 1/20] : List ℚ).sum = sampleScene.tick_rate ∧
      (runUpdates sampleData 0 sampleScene [1/20, 1/20, 1/20]).2 = 1 :=
  ⟨rfl, rfl, by norm_num,
   by norm_num [sampleScene, MazeScene.from_map],
   C3_tick_determinism sampleScene sampleData 0 [1/20, 1/20, 1/20] rfl rfl
     (by norm_num) (by norm_num [sampleScene, MazeScene.from_map])⟩

/-- C10: a single `update` call fires at most one logical tick, and when
the tick fires the accumulator is reset to exactly zero (not decremented by
the period), discarding any accumulated excess. -/
theorem C10_at_most_one_tick (s : MazeScene) (dt : ℚ) (data : GameData) (now : Nat) :
    (s.update dt data now).1.tick_timer =
        (if s.tick_timer + dt ≥ s.tick_rate then 0 else s.tick_timer + dt) ∧
      (runUpdates data now s [dt]).2 ≤ 1 ∧
      (s.tick_timer + dt ≥ s.tick_rate → (s.update dt data now).1.tick_timer = 0) := by
  refine ⟨MazeScene.update_timer s dt data now, ?_, ?_⟩
  · simp only [runUpdates]
    split
    · simp
    · simp
  · intro h
    rw [MazeScene.update_timer, if_pos h]

/-- C10 witness: `delta_seconds = 0.45` with `tick_rate = 0.15` on a
concrete scene fires one tick and leaves the accumulator at exactly zero
(the excess 0.30 is discarded). -/
theorem C10_at_most_one_tick_witness :
    sampleScene.tick_timer + 9/20 ≥ sampleScene.tick_rate ∧
      (sampleScene.update (9/20) sampleData 0).1.tick_timer = 0 :=
  ⟨by norm_num [sampleScene, MazeScene.from_map],
   (C10_at_most_one_tick sampleScene (9/20) sampleData 0).2.2
     (by norm_num [sampleScene, MazeScene.from_map])⟩

theorem MazeScene.in_fov_iff (s : MazeScene) (x y : Nat) :
    s.in_fov x y = true ↔
      x < s.map.grid_w ∧ y < s.map.grid_h ∧
        ((x : Int) - s.player_x) * ((x : Int) - s.player_x) +
            ((y : Int) - s.player_y) * ((y : Int) - s.player_y) ≤
          s.fov_radius * s.fov_radius := by
  unfold MazeScene.in_fov
  split
  · rename_i hb
    simp only [ge_iff_le, Bool.or_eq_true, decide_eq_true_eq] at hb
    constructor
    · intro h
      exact absurd h (by simp)
    · rintro ⟨h1, h2, _⟩
      omega
  · rename_i hb
    simp only [ge_iff_le, Bool.or_eq_true, decide_eq_true_eq, not_or, Nat.not_le] at hb
    simp only [decide_eq_true_eq]
    constructor
    · intro h
      exact ⟨hb.1, hb.2, h⟩
    · rintro ⟨_, _, h⟩
      exact h

/-- C4: every in-bounds cell is in the field of view iff its squared
Euclidean distance from the player is at most `fov_radius` squared (a tile
at exactly distance `fov_radius` is included); every in-FOV cell lies in
the rectangle of `get_visible_bounds`; hence restricting iteration to that
rectangle before the circular predicate selects exactly the same cells as
scanning the whole grid. -/
theorem C4_fov_rectangle (s : MazeScene) (hr : 0 ≤ s.fov_radius) :
    (∀ x y : Nat, x < s.map.grid_w → y < s.map.grid_h →
        (s.in_fov x y = true ↔
          ((x : Int) - s.player_x) * ((x : Int) - s.player_x) +
              ((y : Int) - s.player_y) * ((y : Int) - s.player_y) ≤
            s.fov_radius * s.fov_radius)) ∧
      (∀ x y : Nat, s.in_fov x y = true →
        s.get_visible_bounds.1 ≤ x ∧ x < s.get_visible_bounds.2.1 ∧
          s.get_visible_bounds.2.2.1 ≤ y ∧ y < s.get_visible_bounds.2.2.2) ∧
      (∀ x y : Nat,
        ((s.get_visible_bounds.1 ≤ x ∧ x < s.get_visible_bounds.2.1 ∧
            s.get_visible_bounds.2.2.1 ≤ y ∧ y < s.get_visible_bounds.2.2.2) ∧
          s.in_fov x y = true) ↔
        (x < s.map.grid_w ∧ y < s.map.grid_h ∧ s.in_fov x y = true)) := by
  have hmem : ∀ x y : Nat, s.in_fov x y = true →
      s.get_visible_bounds.1 ≤ x ∧ x < s.get_visible_bounds.2.1 ∧
        s.get_visible_bounds.2.2.1 ≤ y ∧ y < s.get_visible_bounds.2.2.2 := by
    intro x y h
    rw [MazeScene.in_fov_iff] at h
    obtain ⟨hx, hy, hd⟩ := h
    have hdxnn : 0 ≤ ((x : Int) - s.player_x) * ((x : Int) - s.player_x) :=
      mul_self_nonneg _
    have hdynn : 0 ≤ ((y : Int) - s.player_y) * ((y : Int) - s.player_y) :=
      mul_self_nonneg _
    have hdx1 : (x : Int) - s.player_x ≤ s.fov_radius := by nlinarith
    have hdx2 : -s.fov_radius ≤ (x : Int) - s.player_x := by nlinarith
    have hdy1 : (y : Int) - s.player_y ≤ s.fov_radius := by nlinarith
    have hdy2 : -s.fov_radius ≤ (y : Int) - s.player_y := by nlinarith
    unfold MazeScene.get_visible_bounds
    refine ⟨?_, ?_, ?_, ?_⟩ <;> dsimp only <;> omega
  refine ⟨?_, hmem, ?_⟩
  · intro x y hx hy
    rw [MazeScene.in_fov_iff]
    constructor
    · rintro ⟨_, _, h⟩
      exact h
    · intro h
      exact ⟨hx, hy, h⟩
  · intro x y
    constructor
    · rintro ⟨_, hf⟩
      have hb := (MazeScene.in_fov_iff s x y).mp hf
      exact ⟨hb.1, hb.2.1, hf⟩
    · rintro ⟨hx, hy, hf⟩
      exact ⟨hmem x y hf, hf⟩

/-- C4 witness: the FOV predicate evaluated at the concrete in-bounds cell
`(2, 1)` of a concrete scene (radius 7, player at `(1, 1)`). -/
theorem C4_fov_rectangle_witness :
    0 ≤ sampleScene.fov_radius ∧
      (sampleScene.in_fov 2 1 = true ↔
        (((2 : Nat) : Int) - sampleScene.player_x) *
              (((2 : Nat) : Int) - sampleScene.player_x) +
            (((1 : Nat) : Int) - sampleScene.player_y) *
              (((1 : Nat) : Int) - sampleScene.player_y) ≤
          sampleScene.fov_radius * sampleScene.fov_radius) :=
  ⟨by decide, (C4_fov_rectangle sampleScene (by decide)).1 2 1 (by decide) (by decide)⟩

theorem MazeScene.keyboard_candidate_bounds (s : MazeScene) (rl : InputState)
    (hx : s.player_x < s.map.grid_w) (hy : s.player_y < s.map.grid_h) :
    (s.keyboard_candidate rl).1 < s.map.grid_w ∧
      (s.keyboard_candidate rl).2.1 < s.map.grid_h := by
  unfold MazeScene.keyboard_candidate
  dsimp only
  split_ifs <;> constructor <;> dsimp only <;> omega

theorem MazeScene.gamepad_candidate_bounds (s : MazeScene) (rl : InputState)
    (start : Nat × Nat × Bool)
    (hx : start.1 < s.map.grid_w) (hy : start.2.1 < s.map.grid_h) :
    (s.gamepad_candidate rl start).1 < s.map.grid_w ∧
      (s.gamepad_candidate rl start).2.1 < s.map.grid_h := by
  unfold MazeScene.gamepad_candidate
  dsimp only
  split_ifs <;> constructor <;> dsimp only <;> omega

theorem MazeScene.handle_input_invariant (s : MazeScene) (inp : InputState)
    (hinv : s.invariant = true) : (s.handle_input inp).1.invariant = true := by
  obtain ⟨mp, ts, px, py, cam, fov, tt, tr, qm, lg⟩ := s
  cases qm with
  | some q =>
      rw [MazeScene.handle_input_of_queued
        ⟨mp, ts, px, py, cam, fov, tt, tr, some q, lg⟩ inp rfl]
      exact hinv
  | none =>
      have hinv' := hinv
      simp only [MazeScene.invariant, Bool.and_eq_true, decide_eq_true_eq] at hinv'
      obtain ⟨⟨hx, hy⟩, -⟩ := hinv'
      unfold MazeScene.handle_input
      dsimp only
      simp only [Option.isNone_none, if_true]
      simp only [MazeScene.invariant, Bool.and_eq_true, decide_eq_true_eq]
      dsimp only
      refine ⟨⟨hx, hy⟩, ?_⟩
      have hkb := MazeScene.keyboard_candidate_bounds
        ⟨mp, ts, px, py, cam, fov, tt, tr, Option.none, lg⟩ inp hx hy
      have hgp := MazeScene.gamepad_candidate_bounds
        ⟨mp, ts, px, py, cam, fov, tt, tr, Option.none, lg⟩ inp
        (MazeScene.keyboard_candidate
          ⟨mp, ts, px, py, cam, fov, tt, tr, Option.none, lg⟩ inp)
        hkb.1 hkb.2
      split
      · rfl
      · rename_i p heq
        split at heq
        · cases heq
          simp [hgp.1, hgp.2]
        · simp at heq

theorem MazeScene.update_player_invariant (s : MazeScene) (hinv : s.invariant = true) :
    s.update_player.invariant = true := by
  obtain ⟨mp, ts, px, py, cam, fov, tt, tr, qm, lg⟩ := s
  cases qm with
  | none => exact hinv
  | some q =>
      obtain ⟨qx, qy⟩ := q
      by_cases hv : MazeScene.is_valid_move
          ⟨mp, ts, px, py, cam, fov, tt, tr, some (qx, qy), lg⟩ qx qy = true
      · have hb := (MazeScene.is_valid_move_iff _ qx qy).mp hv
        simp only [MazeScene.update_player]
        rw [if_pos hv]
        simp only [MazeScene.invariant, Bool.and_eq_true, decide_eq_true_eq]
        exact ⟨⟨hb.1, hb.2.1⟩, trivial⟩
      · rw [Bool.not_eq_true] at hv
        simp only [MazeScene.update_player]
        rw [if_neg (by simp [hv])]
        have hinv' := hinv
        simp only [MazeScene.invariant, Bool.and_eq_true, decide_eq_true_eq] at hinv'
        simp only [MazeScene.invariant, Bool.and_eq_true, decide_eq_true_eq]
        exact ⟨hinv'.1, trivial⟩

theorem MazeScene.update_invariant (s : MazeScene) (dt : ℚ) (data : GameData)
    (now : Nat) (hinv : s.invariant = true) :
    (s.update dt data now).1.invariant = true := by
  rw [MazeScene.update_eq]
  dsimp only
  split
  · dsimp only
    split
    · exact MazeScene.update_player_invariant _ hinv
    · exact hinv
  · dsimp only
    split
    · exact MazeScene.update_player_invariant _ hinv
    · exact hinv

theorem MazeScene.on_enter_invariant (s : MazeScene) (data : GameData) (now : Nat)
    (hinv : s.invariant = true) (hent : s.map.entitiesInBounds = true) :
    (s.on_enter s.map data now).1.invariant = true := by
  obtain ⟨mp, ts, px, py, cam, fov, tt, tr, qm, lg⟩ := s
  dsimp only at hent
  have hinv' := hinv
  simp only [MazeScene.invariant, Bool.and_eq_true, decide_eq_true_eq] at hinv'
  obtain ⟨⟨hpx, hpy⟩, hq⟩ := hinv'
  unfold MazeScene.on_enter
  dsimp only
  split
  · rename_i e heq
    have he : e ∈ mp.entities := List.mem_of_find?_eq_some heq
    have hb : e.x < mp.grid_w ∧ e.y < mp.grid_h := by
      simp only [MapData.entitiesInBounds, List.all_eq_true, Bool.and_eq_true,
        decide_eq_true_eq] at hent
      exact hent e he
    simp only [MazeScene.invariant, MazeScene.update_camera, Bool.and_eq_true,
      decide_eq_true_eq]
    dsimp only
    exact ⟨⟨hb.1, hb.2⟩, hq⟩
  · split
    · rename_i p heq
      have hvp := List.find?_some heq
      have hb := (MazeScene.is_valid_move_iff _ p.1 p.2).mp hvp
      simp only [MazeScene.invariant, MazeScene.update_camera, Bool.and_eq_true,
        decide_eq_true_eq]
      dsimp only
      exact ⟨⟨hb.1, hb.2.1⟩, hq⟩
    · simp only [MazeScene.invariant, MazeScene.update_camera, Bool.and_eq_true,
        decide_eq_true_eq]
      dsimp only
      exact ⟨⟨hpx, hpy⟩, hq⟩

/-- C9: given the bounds invariant (player inside the grid, queued move —
when present — inside the grid), every maze-scene operation preserves it:
`on_enter` (reloading the same map, whose entities all lie in bounds),
`handle_input` with any input snapshot (candidate cells are clamped to the
grid), and `update` with any `delta_seconds` (moves are re-validated at
apply time). -/
theorem C9_bounds_preserved (s : MazeScene) (data : GameData) (now : Nat)
    (hinv : s.invariant = true) :
    (s.map.entitiesInBounds = true →
        (s.on_enter s.map data now).1.invariant = true) ∧
      (∀ inp : InputState, (s.handle_input inp).1.invariant = true) ∧
      (∀ dt : ℚ, (s.update dt data now).1.invariant = true) :=
  ⟨fun hent => s.on_enter_invariant data now hinv hent,
   fun inp => s.handle_input_invariant inp hinv,
   fun dt => s.update_invariant dt data now hinv⟩

/-- C9 witness: the invariant evaluated on a concrete scene through a
concrete `handle_input` call. -/
theorem C9_bounds_preserved_witness :
    sampleScene.invariant = true ∧
      (sampleScene.handle_input rightInput).1.invariant = true :=
  ⟨by decide,
   (C9_bounds_preserved sampleScene sampleData 0 (by decide)).2.1 rightInput⟩
